import Mathlib

/-!
Shallow embedding of the RemNote MCP bridge server
(`src/server/src/index.ts`), centred on `PluginConnectionManager`:
the connection map, the pending-request table, correlation of
responses to callers, timeouts, and active-connection promotion.

Modelling conventions:
* The JS `Map` objects (`connections`, `pendingRequests`) are modelled as
  association lists that preserve insertion order, matching `Map` iteration
  order; `Map.set` replaces in place or appends, `Map.delete` removes the key.
* The `resolve`/`reject` continuations stored in a `PendingRequest` are
  modelled by tagged observations `(requestId, Outcome)` emitted by a step:
  emitting `(rid, o)` is the call of `rid`'s continuation with outcome `o`.
* The `setTimeout` deadline timer of a pending request is modelled by a
  `timerFire` event; in the source the timer is cleared exactly when its
  table entry is deleted (`handleResponse`, and the failed-write branch of
  `sendRequest`), and the timer callback deletes its own entry, so a timer
  can fire iff its request id is still in the table — the `timerFire` step
  is guarded accordingly.
* `ws.send` is modelled by wire records `(connectionId, WireMsg)` emitted by
  a step; socket writability is the `readyState === WebSocket.OPEN` check.
* Fresh uuidv4 identifiers are modelled as event parameters together with
  freshness/distinctness hypotheses in the theorems.
-/

abbrev ConnId := String
abbrev ReqId := String

/-- Constant `WebSocket.OPEN` of the `ws` library. -/
def WS_OPEN : Nat := 1

/-- Constant `REQUEST_TIMEOUT_MS` (index.ts line 48). -/
def REQUEST_TIMEOUT_MS : Nat := 30000

/-- Model of a `ws` `WebSocket` as seen by the manager: its readyState. -/
structure WS where
  readyState : Nat
deriving DecidableEq, Repr

/-- Outbound wire record `BridgeRequest` (index.ts lines 25-29); the payload
is kept as an opaque serialized string since the manager never inspects it. -/
structure BridgeRequest where
  id : String
  action : String
  payload : String
deriving DecidableEq, Repr

/-- Inbound wire record `BridgeResponse` (index.ts lines 31-35). `result` is
an opaque optional value (`none` models JS `undefined`), `error` an optional
string. -/
structure BridgeResponse where
  id : String
  result : Option String
  error : Option String
deriving DecidableEq, Repr

/-- Truthiness of a JS `string | null | undefined` value: falsy iff absent
or the empty string. -/
def strTruthy : Option String → Bool
  | none => false
  | some s => s ≠ ""

/-- Association-list lookup, modelling `Map.get`. -/
def getAssoc {α : Type} : List (String × α) → String → Option α
  | [], _ => none
  | (k, v) :: rest, key => if k = key then some v else getAssoc rest key

/-- Association-list membership, modelling `Map.has`. -/
def hasAssoc {α : Type} (m : List (String × α)) (key : String) : Bool :=
  (getAssoc m key).isSome

/-- Association-list update, modelling `Map.set`: replaces in place when the
key is present (keeping `Map` insertion order), appends otherwise. -/
def setAssoc {α : Type} : List (String × α) → String → α → List (String × α)
  | [], key, v => [(key, v)]
  | (k, w) :: rest, key, v =>
    if k = key then (k, v) :: rest else (k, w) :: setAssoc rest key v

/-- Association-list removal, modelling `Map.delete`. -/
def delAssoc {α : Type} : List (String × α) → String → List (String × α)
  | [], _ => []
  | (k, v) :: rest, key =>
    if k = key then delAssoc rest key else (k, v) :: delAssoc rest key

/-- Keys of an association list in iteration order, modelling
`Array.from(map.keys())`. -/
def keysOf {α : Type} (m : List (String × α)) : List String :=
  m.map Prod.fst

/-- The state of `PluginConnectionManager` (index.ts lines 54-58): the
pending table keeps just the request ids, its `PendingRequest` values
(`resolve`, `reject`, `timeout` handle) being modelled by observations and
the `timerFire` guard as described in the header. -/
structure Manager where
  connections : List (ConnId × WS)
  pendingRequests : List ReqId
  activeConnectionId : Option ConnId
deriving DecidableEq, Repr

/-- The manager constructed by `new PluginConnectionManager()`. -/
def initialManager : Manager := ⟨[], [], none⟩

/-- Outcome observed by the caller of a dispatched `sendRequest`. -/
inductive Outcome
  | result (v : Option String)
  | remoteError (msg : String)
  | timeout
  | transportNotReady
  | noActiveConnection
deriving DecidableEq, Repr

/-- Message written to a socket by the manager. -/
inductive WireMsg
  | connected (connectionId : ConnId)
  | request (r : BridgeRequest)
  | ping
deriving DecidableEq, Repr

/-- Events that drive the manager: each corresponds to one of its methods
or callbacks. `sendRequest` and `addConnection` carry the uuidv4 the source
generates; `timerFire` is the deadline timer of the named request. -/
inductive Event
  | addConnection (connectionId : ConnId) (ws : WS)
  | wsClose (connectionId : ConnId)
  | sendRequest (requestId : ReqId) (action : String) (payload : String)
  | response (r : BridgeResponse)
  | timerFire (requestId : ReqId)
  | pingAll
deriving DecidableEq, Repr

/-- Result of one manager step: successor state, caller observations,
messages written to sockets. -/
structure StepOut where
  st : Manager
  obs : List (ReqId × Outcome)
  wire : List (ConnId × WireMsg)
deriving DecidableEq, Repr

/-- Check `hasActiveConnection` (index.ts lines 103-106):
`activeConnectionId !== null && connections.has(activeConnectionId)`. -/
def hasActiveConnection (s : Manager) : Bool :=
  match s.activeConnectionId with
  | none => false
  | some a => hasAssoc s.connections a

/-- Step for `addConnection` (index.ts lines 62-98): store the connection,
mark it active if `!this.activeConnectionId` (JS truthiness), send the
`connected` envelope. -/
def addConnectionStep (s : Manager) (connectionId : ConnId) (ws : WS) : StepOut :=
  let conns := setAssoc s.connections connectionId ws
  let active :=
    if strTruthy s.activeConnectionId then s.activeConnectionId
    else some connectionId
  { st := { s with connections := conns, activeConnectionId := active },
    obs := [],
    wire := [(connectionId, WireMsg.connected connectionId)] }

/-- Step for the `ws.on close` handler (index.ts lines 84-92): delete the
connection; if it was the active one, promote the first remaining key of
the map (insertion order) or fall back to `null`. The pending table is not
touched. -/
def wsCloseStep (s : Manager) (connectionId : ConnId) : StepOut :=
  let conns := delAssoc s.connections connectionId
  let active :=
    if s.activeConnectionId = some connectionId then
      match keysOf conns with
      | [] => none
      | k :: _ => some k
    else s.activeConnectionId
  { st := { s with connections := conns, activeConnectionId := active },
    obs := [], wire := [] }

/-- Insertion into the pending table, modelling
`pendingRequests.set(requestId, ...)`. -/
def pendingSet (l : List ReqId) (rid : ReqId) : List ReqId :=
  if rid ∈ l then l else l ++ [rid]

/-- Step for `sendRequest` (index.ts lines 111-140): fail fast with
`NoActiveConnection` when `hasActiveConnection` is false; otherwise arm the
deadline timer, record the pending request, and write the envelope to the
active connection — and if that socket is missing or not OPEN, clear the
timer, delete the entry and fail with `TransportNotReady`. -/
def sendRequestStep (s : Manager) (requestId : ReqId) (action payload : String) :
    StepOut :=
  if hasActiveConnection s then
    let s1 := { s with pendingRequests := pendingSet s.pendingRequests requestId }
    match getAssoc s1.connections (s.activeConnectionId.getD "") with
    | some ws =>
      if ws.readyState = WS_OPEN then
        { st := s1, obs := [],
          wire := [(s.activeConnectionId.getD "",
                    WireMsg.request ⟨requestId, action, payload⟩)] }
      else
        { st := { s1 with
                    pendingRequests := s1.pendingRequests.erase requestId },
          obs := [(requestId, Outcome.transportNotReady)], wire := [] }
    | none =>
      { st := { s1 with
                  pendingRequests := s1.pendingRequests.erase requestId },
        obs := [(requestId, Outcome.transportNotReady)], wire := [] }
  else
    { st := s, obs := [(requestId, Outcome.noActiveConnection)], wire := [] }

/-- Outcome delivered by `handleResponse` on a matched response
(index.ts lines 155-159): `if (response.error)` — JS truthiness, so a
present-but-empty error string takes the resolve branch. -/
def responseOutcome (r : BridgeResponse) : Outcome :=
  if strTruthy r.error then Outcome.remoteError (r.error.getD "")
  else Outcome.result r.result

/-- Step for `handleResponse` (index.ts lines 145-162): unknown correlation
ids are discarded with only a warning log; a match clears the timer,
deletes the entry and resolves/rejects per the envelope. -/
def handleResponseStep (s : Manager) (r : BridgeResponse) : StepOut :=
  if r.id ∈ s.pendingRequests then
    { st := { s with pendingRequests := s.pendingRequests.erase r.id },
      obs := [(r.id, responseOutcome r)], wire := [] }
  else
    { st := s, obs := [], wire := [] }

/-- Step for a deadline timer firing (index.ts lines 121-124): delete the
entry and reject with `Timeout`. Guarded on membership because in the
source the timer is cleared whenever the entry is removed by another path. -/
def timerFireStep (s : Manager) (requestId : ReqId) : StepOut :=
  if requestId ∈ s.pendingRequests then
    { st := { s with pendingRequests := s.pendingRequests.erase requestId },
      obs := [(requestId, Outcome.timeout)], wire := [] }
  else
    { st := s, obs := [], wire := [] }

/-- Step for `pingAll` (index.ts lines 167-173): a ping to every tracked
connection whose socket is OPEN; no state change, no caller observation. -/
def pingAllStep (s : Manager) : StepOut :=
  { st := s, obs := [],
    wire := (s.connections.filter (fun p => p.2.readyState = WS_OPEN)).map
      (fun p => (p.1, WireMsg.ping)) }

/-- One manager step. -/
def step (s : Manager) : Event → StepOut
  | Event.addConnection cid ws => addConnectionStep s cid ws
  | Event.wsClose cid => wsCloseStep s cid
  | Event.sendRequest rid action payload => sendRequestStep s rid action payload
  | Event.response r => handleResponseStep s r
  | Event.timerFire rid => timerFireStep s rid
  | Event.pingAll => pingAllStep s

/-- Run a whole event trace, concatenating observations and wire output. -/
def runTrace (s : Manager) : List Event → StepOut
  | [] => ⟨s, [], []⟩
  | e :: rest =>
    let o := step s e
    let t := runTrace o.st rest
    ⟨t.st, o.obs ++ t.obs, o.wire ++ t.wire⟩

/-- Number of observations a trace delivers to the caller of `rid`. -/
def obsCount (rid : ReqId) (obs : List (ReqId × Outcome)) : Nat :=
  obs.countP (fun p => p.1 == rid)

/-- Number of `sendRequest` events in a trace that dispatch with id `rid`. -/
def sendCount (rid : ReqId) (evs : List Event) : Nat :=
  evs.countP (fun e =>
    match e with
    | Event.sendRequest r _ _ => r == rid
    | _ => false)

/-- One when `rid` is in the pending table, zero otherwise. -/
def pendingBit (rid : ReqId) (s : Manager) : Nat :=
  if rid ∈ s.pendingRequests then 1 else 0

/-- Status of the reconnecting transport client. -/
inductive ConnStatus
  | disconnected
  | connecting
  | connected
deriving DecidableEq, Repr

/-- Option `maxReconnectAttempts: 10` passed at `new WebSocketClient`
(server/README.md lines 330-343). -/
def maxReconnectAttempts : Nat := 10

/-- Option `initialReconnectDelay: 1000` passed at `new WebSocketClient`
(server/README.md lines 330-343). -/
def initialReconnectDelay : Nat := 1000

/-- Option `maxReconnectDelay: 30000` passed at `new WebSocketClient`
(server/README.md lines 330-343). -/
def maxReconnectDelay : Nat := 30000

/-- Modelled from the spec: the `WebSocketClient` class of
`bridge/websocket-client` is missing from the sources — only its
construction (server/README.md) and spec sections 3, 4.2 and 8 describe it.
State: connection status, reconnect attempt count, current backoff delay,
and the delay of the currently scheduled automatic reconnect, if any. -/
structure WebSocketClient where
  status : ConnStatus
  reconnectAttempts : Nat
  reconnectDelay : Nat
  scheduledReconnect : Option Nat
deriving DecidableEq, Repr

/-- Modelled from the spec: freshly constructed client — starts
disconnected, no attempts, backoff at its initial value, nothing
scheduled. -/
def WebSocketClient.init : WebSocketClient :=
  ⟨ConnStatus.disconnected, 0, initialReconnectDelay, none⟩

/-- Modelled from the spec: `connect()` is an idempotent entry into
`connecting`, opening the underlying socket to the configured address. -/
def WebSocketClient.connect (c : WebSocketClient) : WebSocketClient :=
  { c with status := ConnStatus.connecting }

/-- Modelled from the spec: on successful open the client transitions to
`connected` and resets the attempt count and the backoff delay to their
initial values. -/
def WebSocketClient.onOpen (c : WebSocketClient) : WebSocketClient :=
  { c with status := ConnStatus.connected, reconnectAttempts := 0,
           reconnectDelay := initialReconnectDelay,
           scheduledReconnect := none }

/-- Modelled from the spec: on socket close/error while `connected` or
`connecting` the client transitions to `disconnected`; if the attempt count
is below the configured maximum it schedules a reconnect after the current
backoff delay, increments the attempt count, and doubles the delay capped
at the configured maximum. -/
def WebSocketClient.onCloseOrError (c : WebSocketClient) : WebSocketClient :=
  if c.status = ConnStatus.connected ∨ c.status = ConnStatus.connecting then
    if c.reconnectAttempts < maxReconnectAttempts then
      { status := ConnStatus.disconnected,
        reconnectAttempts := c.reconnectAttempts + 1,
        reconnectDelay := min (c.reconnectDelay * 2) maxReconnectDelay,
        scheduledReconnect := some c.reconnectDelay }
    else
      { c with status := ConnStatus.disconnected,
               scheduledReconnect := none }
  else c

/-- Modelled from the spec: the scheduled reconnect timer fires and the
client re-enters `connecting` (the next attempt is made). -/
def WebSocketClient.reconnectFire (c : WebSocketClient) : WebSocketClient :=
  match c.scheduledReconnect with
  | some _ =>
    { c with status := ConnStatus.connecting, scheduledReconnect := none }
  | none => c

/-- Client state after the k-th consecutive failed connection attempt:
attempt 1 is the initial `connect()`, each failure's scheduled reconnect
fires before the next failure (`reconnectFire` is the identity when nothing
is scheduled). -/
def failedAttempts : Nat → WebSocketClient
  | 0 => WebSocketClient.init.connect
  | k + 1 => ((failedAttempts k).reconnectFire).onCloseOrError

/-! Helper lemmas about the pending-table list operations. -/

theorem mem_pendingSet (l : List ReqId) (rid x : ReqId) :
    x ∈ pendingSet l rid ↔ x ∈ l ∨ x = rid := by
  unfold pendingSet
  split
  · constructor
    · intro hx; exact Or.inl hx
    · rintro (hx | rfl) <;> assumption
  · simp [List.mem_append]

theorem pendingSet_nodup (l : List ReqId) (rid : ReqId) (h : l.Nodup) :
    (pendingSet l rid).Nodup := by
  unfold pendingSet
  split
  · exact h
  · rw [List.nodup_append]
    refine ⟨h, List.nodup_singleton rid, ?_⟩
    intro x hx hmem
    simp only [List.mem_singleton] at hmem
    subst hmem
    exact absurd hx (by assumption)

theorem erase_pendingSet (l : List ReqId) (rid : ReqId) (h : rid ∉ l) :
    (pendingSet l rid).erase rid = l := by
  unfold pendingSet
  rw [if_neg h, List.erase_append_right _ h]
  simp

theorem step_pending_nodup (s : Manager) (e : Event)
    (h : s.pendingRequests.Nodup) : ((step s e).st.pendingRequests).Nodup := by
  cases e with
  | addConnection cid ws => exact h
  | wsClose cid => exact h
  | sendRequest rid a p =>
    simp only [step, sendRequestStep]
    split
    · split
      · split
        · exact pendingSet_nodup _ _ h
        · exact (pendingSet_nodup _ _ h).erase _
      · exact (pendingSet_nodup _ _ h).erase _
    · exact h
  | response r =>
    simp only [step, handleResponseStep]
    split
    · exact h.erase _
    · exact h
  | timerFire rid =>
    simp only [step, timerFireStep]
    split
    · exact h.erase _
    · exact h
  | pingAll => exact h

theorem pendingBit_erase_self (s : Manager) (rid : ReqId)
    (hnd : s.pendingRequests.Nodup) :
    pendingBit rid { s with pendingRequests := s.pendingRequests.erase rid } = 0 := by
  simp only [pendingBit]
  rw [if_neg]
  intro hmem
  exact absurd (hnd.mem_erase_iff.mp hmem).1 (by simp)

theorem pendingBit_erase_ne (s : Manager) (rid x : ReqId) (h : rid ≠ x) :
    pendingBit rid { s with pendingRequests := s.pendingRequests.erase x } =
      pendingBit rid s := by
  simp only [pendingBit, List.mem_erase_of_ne h]

theorem count_step (s : Manager) (e : Event) (rid : ReqId)
    (hnd : s.pendingRequests.Nodup)
    (hb : pendingBit rid s + sendCount rid [e] ≤ 1) :
    obsCount rid (step s e).obs + pendingBit rid (step s e).st =
      pendingBit rid s + sendCount rid [e] := by
  cases e with
  | addConnection cid ws =>
    simp [step, addConnectionStep, obsCount, sendCount, pendingBit]
  | wsClose cid =>
    simp [step, wsCloseStep, obsCount, sendCount, pendingBit]
  | pingAll =>
    simp [step, pingAllStep, obsCount, sendCount, pendingBit]
  | sendRequest r a p =>
    by_cases hr : r = rid
    · subst hr
      have hsc : sendCount r [Event.sendRequest r a p] = 1 := by
        simp [sendCount]
      rw [hsc] at hb ⊢
      have hnp : r ∉ s.pendingRequests := by
        by_contra hmem
        simp [pendingBit, hmem] at hb
      have hbit : pendingBit r s = 0 := by simp [pendingBit, hnp]
      rw [hbit]
      simp only [step, sendRequestStep]
      split
      · split
        · split
          · simp [obsCount, pendingBit, mem_pendingSet]
          · simp [obsCount, pendingBit, erase_pendingSet _ _ hnp, hnp]
        · simp [obsCount, pendingBit, erase_pendingSet _ _ hnp, hnp]
      · rw [hbit]; simp [obsCount]
    · have hne : rid ≠ r := Ne.symm hr
      have hsc : sendCount rid [Event.sendRequest r a p] = 0 := by
        simp [sendCount, hr]
      rw [hsc]
      simp only [step, sendRequestStep]
      split
      · split
        · split
          · simp [obsCount, pendingBit, mem_pendingSet, hne]
          · simp [obsCount, pendingBit, List.mem_erase_of_ne hne,
              mem_pendingSet, hne, hr]
        · simp [obsCount, pendingBit, List.mem_erase_of_ne hne,
            mem_pendingSet, hne, hr]
      · simp [obsCount, pendingBit, hr]
  | response r =>
    have hsc : sendCount rid [Event.response r] = 0 := by simp [sendCount]
    rw [hsc]
    simp only [step, handleResponseStep]
    split
    · by_cases hr : r.id = rid
      · subst hr
        have hmem : r.id ∈ s.pendingRequests := by assumption
        rw [pendingBit_erase_self s r.id hnd]
        simp [obsCount, pendingBit, hmem]
      · rw [pendingBit_erase_ne s rid r.id (Ne.symm hr)]
        simp [obsCount, hr]
    · simp [obsCount]
  | timerFire rq =>
    have hsc : sendCount rid [Event.timerFire rq] = 0 := by simp [sendCount]
    rw [hsc]
    simp only [step, timerFireStep]
    split
    · by_cases hr : rq = rid
      · subst hr
        have hmem : rq ∈ s.pendingRequests := by assumption
        rw [pendingBit_erase_self s rq hnd]
        simp [obsCount, pendingBit, hmem]
      · rw [pendingBit_erase_ne s rid rq (Ne.symm hr)]
        simp [obsCount, hr]
    · simp [obsCount]

theorem sendCount_cons (rid : ReqId) (e : Event) (evs : List Event) :
    sendCount rid (e :: evs) = sendCount rid [e] + sendCount rid evs := by
  simp [sendCount, List.countP_cons]
  omega

theorem obsCount_append (rid : ReqId) (l₁ l₂ : List (ReqId × Outcome)) :
    obsCount rid (l₁ ++ l₂) = obsCount rid l₁ + obsCount rid l₂ := by
  simp [obsCount, List.countP_append]

theorem run_pending_nodup (evs : List Event) (s : Manager)
    (h : s.pendingRequests.Nodup) :
    ((runTrace s evs).st.pendingRequests).Nodup := by
  induction evs generalizing s with
  | nil => exact h
  | cons e rest ih =>
    simp only [runTrace]
    exact ih _ (step_pending_nodup s e h)

theorem count_run (rid : ReqId) (evs : List Event) (s : Manager)
    (hnd : s.pendingRequests.Nodup)
    (hb : pendingBit rid s + sendCount rid evs ≤ 1) :
    obsCount rid (runTrace s evs).obs + pendingBit rid (runTrace s evs).st =
      pendingBit rid s + sendCount rid evs := by
  induction evs generalizing s with
  | nil => simp [runTrace, obsCount, sendCount]
  | cons e rest ih =>
    rw [sendCount_cons] at hb ⊢
    have hb1 : pendingBit rid s + sendCount rid [e] ≤ 1 := by omega
    have h1 := count_step s e rid hnd hb1
    have hnd1 := step_pending_nodup s e hnd
    have hb2 : pendingBit rid (step s e).st + sendCount rid rest ≤ 1 := by omega
    have h2 := ih (step s e).st hnd1 hb2
    simp only [runTrace, obsCount_append]
    omega

/-! Characterisation of the association-list operations. -/

theorem getAssoc_setAssoc {α : Type} (m : List (String × α)) (k key : String)
    (v : α) :
    getAssoc (setAssoc m k v) key = if k = key then some v else getAssoc m key := by
  induction m with
  | nil => simp [setAssoc, getAssoc]
  | cons hd tl ih =>
    obtain ⟨k', w⟩ := hd
    by_cases h1 : k' = k
    · subst h1
      simp only [setAssoc, if_pos rfl, getAssoc]
      by_cases h2 : k' = key <;> simp [h2]
    · simp only [setAssoc, if_neg h1, getAssoc]
      by_cases h2 : k' = key
      · subst h2
        have : ¬k = k' := fun h => h1 h.symm
        simp [this]
      · simp [h2, ih]

theorem getAssoc_delAssoc {α : Type} (m : List (String × α)) (k key : String) :
    getAssoc (delAssoc m k) key = if k = key then none else getAssoc m key := by
  induction m with
  | nil => simp [delAssoc, getAssoc]
  | cons hd tl ih =>
    obtain ⟨k', w⟩ := hd
    by_cases h1 : k' = k
    · subst h1
      by_cases h2 : k' = key
      · subst h2
        simpa [delAssoc] using ih
      · simp [delAssoc, getAssoc, h2, ih]
    · simp only [delAssoc, if_neg h1, getAssoc]
      by_cases h2 : k' = key
      · subst h2
        have : ¬k = k' := fun h => h1 h.symm
        simp [this]
      · simp [h2, ih]

theorem hasAssoc_head {α : Type} (m : List (String × α)) (k : String)
    (h : ∃ rest, keysOf m = k :: rest) : hasAssoc m k = true := by
  obtain ⟨rest, hrest⟩ := h
  cases m with
  | nil => simp [keysOf] at hrest
  | cons hd tl =>
    obtain ⟨k', w⟩ := hd
    simp only [keysOf, List.map_cons, List.cons.injEq] at hrest
    simp [hasAssoc, getAssoc, hrest.1]

theorem sendRequestStep_frame (s : Manager) (rid a p : String) :
    (sendRequestStep s rid a p).st.connections = s.connections ∧
      (sendRequestStep s rid a p).st.activeConnectionId = s.activeConnectionId := by
  simp only [sendRequestStep]
  split
  · split
    · split <;> exact ⟨rfl, rfl⟩
    · exact ⟨rfl, rfl⟩
  · exact ⟨rfl, rfl⟩

theorem handleResponseStep_frame (s : Manager) (r : BridgeResponse) :
    (handleResponseStep s r).st.connections = s.connections ∧
      (handleResponseStep s r).st.activeConnectionId = s.activeConnectionId := by
  simp only [handleResponseStep]
  split <;> exact ⟨rfl, rfl⟩

theorem timerFireStep_frame (s : Manager) (rid : ReqId) :
    (timerFireStep s rid).st.connections = s.connections ∧
      (timerFireStep s rid).st.activeConnectionId = s.activeConnectionId := by
  simp only [timerFireStep]
  split <;> exact ⟨rfl, rfl⟩

/-- Invariant relating the active-connection pointer to the connection map:
whenever `activeConnectionId` is non-null it names a tracked connection. -/
def ActiveTracked (s : Manager) : Prop :=
  ∀ a, s.activeConnectionId = some a → hasAssoc s.connections a = true

theorem step_preserves_activeTracked (s : Manager) (e : Event)
    (h : ActiveTracked s) : ActiveTracked (step s e).st := by
  cases e with
  | addConnection cid ws =>
    intro a ha
    simp only [step, addConnectionStep] at ha ⊢
    rw [hasAssoc, getAssoc_setAssoc]
    split at ha
    · have := h a ha
      split
      · simp
      · rw [hasAssoc] at this
        exact this
    · cases ha
      simp
  | wsClose cid =>
    intro a ha
    simp only [step, wsCloseStep] at ha ⊢
    split at ha
    · split at ha
      · cases ha
      · cases ha
        apply hasAssoc_head
        exact ⟨_, by assumption⟩
    · have hne : s.activeConnectionId ≠ some cid := by assumption
      have htr := h a ha
      have hacid : a ≠ cid := by
        intro hEq
        subst hEq
        exact hne ha
      rw [hasAssoc, getAssoc_delAssoc]
      rw [if_neg (fun hEq => hacid hEq.symm)]
      rw [hasAssoc] at htr
      exact htr
  | sendRequest rid act p =>
    intro a ha
    have hf := sendRequestStep_frame s rid act p
    simp only [step] at ha ⊢
    rw [hf.2] at ha
    rw [hf.1]
    exact h a ha
  | response r =>
    intro a ha
    have hf := handleResponseStep_frame s r
    simp only [step] at ha ⊢
    rw [hf.2] at ha
    rw [hf.1]
    exact h a ha
  | timerFire rid =>
    intro a ha
    have hf := timerFireStep_frame s rid
    simp only [step] at ha ⊢
    rw [hf.2] at ha
    rw [hf.1]
    exact h a ha
  | pingAll => exact h

theorem run_preserves_activeTracked (evs : List Event) (s : Manager)
    (h : ActiveTracked s) : ActiveTracked (runTrace s evs).st := by
  induction evs generalizing s with
  | nil => exact h
  | cons e rest ih =>
    simp only [runTrace]
    exact ih _ (step_preserves_activeTracked s e h)

theorem hasActive_of_activeTracked (s : Manager) (h : ActiveTracked s) :
    hasActiveConnection s = s.activeConnectionId.isSome := by
  unfold hasActiveConnection
  cases hac : s.activeConnectionId with
  | none => simp
  | some a => simp [h a hac]

/-! Step-characterisation lemmas. -/

theorem hasActive_update_pending (s : Manager) (l : List ReqId) :
    hasActiveConnection { s with pendingRequests := l } = hasActiveConnection s :=
  rfl

theorem sendRequestStep_success (s : Manager) (rid a p : String) (ws : WS)
    (hact : hasActiveConnection s = true)
    (hws : getAssoc s.connections (s.activeConnectionId.getD "") = some ws)
    (hopen : ws.readyState = WS_OPEN)
    (hfresh : rid ∉ s.pendingRequests) :
    sendRequestStep s rid a p =
      ⟨{ s with pendingRequests := s.pendingRequests ++ [rid] }, [],
       [(s.activeConnectionId.getD "", WireMsg.request ⟨rid, a, p⟩)]⟩ := by
  simp only [sendRequestStep, hact, if_true, hws, hopen, pendingSet,
    if_neg hfresh, if_pos rfl]

theorem sendRequestStep_noActive (s : Manager) (rid a p : String)
    (hact : hasActiveConnection s = false) :
    sendRequestStep s rid a p =
      ⟨s, [(rid, Outcome.noActiveConnection)], []⟩ := by
  simp only [sendRequestStep, hact]
  simp

theorem handleResponseStep_hit (s : Manager) (r : BridgeResponse)
    (h : r.id ∈ s.pendingRequests) :
    handleResponseStep s r =
      ⟨{ s with pendingRequests := s.pendingRequests.erase r.id },
       [(r.id, responseOutcome r)], []⟩ := by
  simp only [handleResponseStep, if_pos h]

theorem handleResponseStep_miss (s : Manager) (r : BridgeResponse)
    (h : r.id ∉ s.pendingRequests) :
    handleResponseStep s r = ⟨s, [], []⟩ := by
  simp only [handleResponseStep, if_neg h]

theorem timerFireStep_hit (s : Manager) (rid : ReqId)
    (h : rid ∈ s.pendingRequests) :
    timerFireStep s rid =
      ⟨{ s with pendingRequests := s.pendingRequests.erase rid },
       [(rid, Outcome.timeout)], []⟩ := by
  simp only [timerFireStep, if_pos h]

/-! Claim theorems. -/

/-- C1: Over any event trace in which a request id is dispatched at most
once (uuidv4 freshness) and starts outside the pending table, the caller of
that id observes an outcome exactly as many times as the id is dispatched
minus an entry still pending — so never more than once — and an entry still
pending is resolved by its own deadline timer with exactly a single
`Timeout` observation, after which it is gone from the table: every
dispatched call is resolved exactly once, by response arrival or deadline
elapse, whichever comes first. -/
theorem dispatch_resolved_exactly_once
    (s : Manager) (evs : List Event) (rid : ReqId)
    (hnd : s.pendingRequests.Nodup)
    (hfresh : rid ∉ s.pendingRequests)
    (honce : sendCount rid evs ≤ 1) :
    obsCount rid (runTrace s evs).obs + pendingBit rid (runTrace s evs).st =
        sendCount rid evs
    ∧ (rid ∈ (runTrace s evs).st.pendingRequests →
        (step (runTrace s evs).st (Event.timerFire rid)).obs =
            [(rid, Outcome.timeout)]
        ∧ rid ∉ (step (runTrace s evs).st (Event.timerFire rid)).st.pendingRequests) := by
  have hbit0 : pendingBit rid s = 0 := by simp [pendingBit, hfresh]
  constructor
  · have h := count_run rid evs s hnd (by rw [hbit0]; simpa using honce)
    rw [hbit0] at h
    simpa using h
  · intro hmem
    have hnd' := run_pending_nodup evs s hnd
    constructor
    · simp only [step, timerFireStep_hit _ _ hmem]
    · simp only [step, timerFireStep_hit _ _ hmem]
      intro hmem'
      exact absurd (hnd'.mem_erase_iff.mp hmem').1 (by simp)

/-- C1 witness: a trace that connects a plugin, dispatches one call and
answers it; the call is observed exactly once and nothing stays pending. -/
theorem dispatch_resolved_exactly_once_witness :
    obsCount "r1" (runTrace initialManager
        [Event.addConnection "c1" ⟨1⟩,
         Event.sendRequest "r1" "search" "q",
         Event.response ⟨"r1", some "ok", none⟩]).obs +
      pendingBit "r1" (runTrace initialManager
        [Event.addConnection "c1" ⟨1⟩,
         Event.sendRequest "r1" "search" "q",
         Event.response ⟨"r1", some "ok", none⟩]).st =
      sendCount "r1"
        [Event.addConnection "c1" ⟨1⟩,
         Event.sendRequest "r1" "search" "q",
         Event.response ⟨"r1", some "ok", none⟩]
    ∧ ("r1" ∈ (runTrace initialManager
        [Event.addConnection "c1" ⟨1⟩,
         Event.sendRequest "r1" "search" "q",
         Event.response ⟨"r1", some "ok", none⟩]).st.pendingRequests →
        (step (runTrace initialManager
            [Event.addConnection "c1" ⟨1⟩,
             Event.sendRequest "r1" "search" "q",
             Event.response ⟨"r1", some "ok", none⟩]).st
            (Event.timerFire "r1")).obs = [("r1", Outcome.timeout)]
        ∧ "r1" ∉ (step (runTrace initialManager
            [Event.addConnection "c1" ⟨1⟩,
             Event.sendRequest "r1" "search" "q",
             Event.response ⟨"r1", some "ok", none⟩]).st
            (Event.timerFire "r1")).st.pendingRequests) :=
  dispatch_resolved_exactly_once initialManager
    [Event.addConnection "c1" ⟨1⟩,
     Event.sendRequest "r1" "search" "q",
     Event.response ⟨"r1", some "ok", none⟩] "r1"
    (by decide) (by decide) (by decide)

/-- C2: Two dispatches with distinct fresh correlation ids (dispatch A then
B) on a writable active connection, answered in reverse order (B's envelope
first, then A's), deliver to each caller exactly the outcome of the envelope
whose id matches its own call — responses are never misrouted between
concurrent callers. -/
theorem concurrent_dispatch_routes_by_id
    (s : Manager) (ra actA pA rb actB pB : String)
    (envA envB : BridgeResponse) (ws : WS)
    (hact : hasActiveConnection s = true)
    (hws : getAssoc s.connections (s.activeConnectionId.getD "") = some ws)
    (hopen : ws.readyState = WS_OPEN)
    (hra : ra ∉ s.pendingRequests) (hrb : rb ∉ s.pendingRequests)
    (hne : ra ≠ rb)
    (hidA : envA.id = ra) (hidB : envB.id = rb) :
    (runTrace s [Event.sendRequest ra actA pA, Event.sendRequest rb actB pB,
                 Event.response envB, Event.response envA]).obs =
      [(rb, responseOutcome envB), (ra, responseOutcome envA)] := by
  have h1 := sendRequestStep_success s ra actA pA ws hact hws hopen hra
  simp only [runTrace, step, h1]
  have hrb1 : rb ∉ s.pendingRequests ++ [ra] := by
    simp [hrb, Ne.symm hne]
  have h2 := sendRequestStep_success
    { s with pendingRequests := s.pendingRequests ++ [ra] }
    rb actB pB ws hact hws hopen hrb1
  simp only [h2]
  have hmemB : envB.id ∈ (s.pendingRequests ++ [ra]) ++ [rb] := by
    simp [hidB]
  have h3 := handleResponseStep_hit
    { s with pendingRequests := (s.pendingRequests ++ [ra]) ++ [rb] }
    envB hmemB
  simp only [h3]
  have herase : ((s.pendingRequests ++ [ra]) ++ [rb]).erase envB.id =
      s.pendingRequests ++ [ra] := by
    rw [hidB, List.erase_append_right _ hrb1]
    simp
  simp only [herase]
  have hmemA : envA.id ∈ s.pendingRequests ++ [ra] := by simp [hidA]
  have h4 := handleResponseStep_hit
    { s with pendingRequests := s.pendingRequests ++ [ra] }
    envA hmemA
  simp only [h4]
  simp [hidA, hidB]

/-- C2 witness: dispatch "ra" then "rb" on a live connection, answer "rb"
first with a result and "ra" second with an error; each caller receives its
own envelope's outcome. -/
theorem concurrent_dispatch_routes_by_id_witness :
    (runTrace ⟨[("c1", ⟨1⟩)], [], some "c1"⟩
        [Event.sendRequest "ra" "search" "q1",
         Event.sendRequest "rb" "read_note" "q2",
         Event.response ⟨"rb", some "vB", none⟩,
         Event.response ⟨"ra", none, some "boom"⟩]).obs =
      [("rb", responseOutcome ⟨"rb", some "vB", none⟩),
       ("ra", responseOutcome ⟨"ra", none, some "boom"⟩)] :=
  concurrent_dispatch_routes_by_id ⟨[("c1", ⟨1⟩)], [], some "c1"⟩
    "ra" "search" "q1" "rb" "read_note" "q2"
    ⟨"ra", none, some "boom"⟩ ⟨"rb", some "vB", none⟩ ⟨1⟩
    (by decide) (by decide) (by decide) (by decide) (by decide)
    (by decide) (by decide) (by decide)

/-- C3: The request timeout constant is 30000 ms, and when the deadline
timer of a pending call fires, the caller is rejected with `Timeout`, the
entry leaves the pending table at that moment, and a later response
carrying the same correlation id finds no entry: it is discarded with no
observation and no state change. -/
theorem timeout_rejects_then_late_response_discarded
    (s : Manager) (rid : ReqId) (resp : BridgeResponse)
    (hmem : rid ∈ s.pendingRequests)
    (hnd : s.pendingRequests.Nodup)
    (hid : resp.id = rid) :
    REQUEST_TIMEOUT_MS = 30000
    ∧ (step s (Event.timerFire rid)).obs = [(rid, Outcome.timeout)]
    ∧ rid ∉ (step s (Event.timerFire rid)).st.pendingRequests
    ∧ step (step s (Event.timerFire rid)).st (Event.response resp) =
        ⟨(step s (Event.timerFire rid)).st, [], []⟩ := by
  have hgone : rid ∉ s.pendingRequests.erase rid := by
    intro hmem'
    exact absurd (hnd.mem_erase_iff.mp hmem').1 (by simp)
  refine ⟨rfl, ?_, ?_, ?_⟩
  · simp only [step, timerFireStep_hit _ _ hmem]
  · simp only [step, timerFireStep_hit _ _ hmem]
    exact hgone
  · simp only [step, timerFireStep_hit _ _ hmem]
    exact handleResponseStep_miss _ _ (by rw [hid]; exact hgone)

/-- C3 witness: with call "r1" pending, the deadline fires, rejecting it
with `Timeout` and emptying its entry; the late response for "r1" is then a
no-op. -/
theorem timeout_rejects_then_late_response_discarded_witness :
    REQUEST_TIMEOUT_MS = 30000
    ∧ (step ⟨[("c1", ⟨1⟩)], ["r1"], some "c1"⟩ (Event.timerFire "r1")).obs =
        [("r1", Outcome.timeout)]
    ∧ "r1" ∉ (step ⟨[("c1", ⟨1⟩)], ["r1"], some "c1"⟩
        (Event.timerFire "r1")).st.pendingRequests
    ∧ step (step ⟨[("c1", ⟨1⟩)], ["r1"], some "c1"⟩ (Event.timerFire "r1")).st
          (Event.response ⟨"r1", some "late", none⟩) =
        ⟨(step ⟨[("c1", ⟨1⟩)], ["r1"], some "c1"⟩ (Event.timerFire "r1")).st,
         [], []⟩ :=
  timeout_rejects_then_late_response_discarded
    ⟨[("c1", ⟨1⟩)], ["r1"], some "c1"⟩ "r1" ⟨"r1", some "late", none⟩
    (by decide) (by decide) (by decide)

/-- C4: A response whose correlation id has no entry in the pending table
is discarded: `handleResponse` produces no observation, no wire output, and
leaves the manager state — the pending table and everything else —
unchanged. -/
theorem unknown_response_discarded (s : Manager) (resp : BridgeResponse)
    (h : resp.id ∉ s.pendingRequests) :
    step s (Event.response resp) = ⟨s, [], []⟩ :=
  handleResponseStep_miss s resp h

/-- C4 witness: a response for never-issued id "ghost" leaves a manager
with pending call "r1" untouched. -/
theorem unknown_response_discarded_witness :
    step ⟨[("c1", ⟨1⟩)], ["r1"], some "c1"⟩
        (Event.response ⟨"ghost", some "v", none⟩) =
      ⟨⟨[("c1", ⟨1⟩)], ["r1"], some "c1"⟩, [], []⟩ :=
  unknown_response_discarded ⟨[("c1", ⟨1⟩)], ["r1"], some "c1"⟩
    ⟨"ghost", some "v", none⟩ (by decide)

/-- C6: If at dispatch time the active connection is tracked but its socket
is not OPEN, the dispatch fails immediately with `TransportNotReady`,
nothing is written to the wire, and the manager state after the failed
dispatch — in particular the pending table — equals the state before it. -/
theorem transport_not_ready_preserves_state
    (s : Manager) (rid act p : String) (ws : WS)
    (hact : hasActiveConnection s = true)
    (hws : getAssoc s.connections (s.activeConnectionId.getD "") = some ws)
    (hnotopen : ws.readyState ≠ WS_OPEN)
    (hfresh : rid ∉ s.pendingRequests) :
    step s (Event.sendRequest rid act p) =
      ⟨s, [(rid, Outcome.transportNotReady)], []⟩ := by
  simp only [step, sendRequestStep, hact, if_true, hws, if_neg hnotopen,
    pendingSet, if_neg hfresh]
  rw [List.erase_append_right _ hfresh]
  simp

/-- C6 witness: the active connection's socket has readyState CLOSED (3);
dispatching "r1" fails with `TransportNotReady` and the state is exactly
what it was. -/
theorem transport_not_ready_preserves_state_witness :
    step ⟨[("c1", ⟨3⟩)], [], some "c1"⟩ (Event.sendRequest "r1" "search" "q") =
      ⟨⟨[("c1", ⟨3⟩)], [], some "c1"⟩, [("r1", Outcome.transportNotReady)], []⟩ :=
  transport_not_ready_preserves_state ⟨[("c1", ⟨3⟩)], [], some "c1"⟩
    "r1" "search" "q" ⟨3⟩ (by decide) (by decide) (by decide) (by decide)

/-- C7 counterexample: an envelope that carries the error string `""` is
not rejected with that string — `handleResponse` tests `response.error` by
JS truthiness, so the empty error string takes the resolve branch and the
call resolves with the envelope's result instead. -/
theorem empty_error_string_resolves_not_rejects :
    (⟨"r1", some "v", some ""⟩ : BridgeResponse).error = some ""
    ∧ (step ⟨[], ["r1"], none⟩
          (Event.response ⟨"r1", some "v", some ""⟩)).obs =
        [("r1", Outcome.result (some "v"))]
    ∧ (step ⟨[], ["r1"], none⟩
          (Event.response ⟨"r1", some "v", some ""⟩)).obs ≠
        [("r1", Outcome.remoteError "")] := by
  refine ⟨rfl, by decide, by decide⟩

/-- C7 (amended): for a response matching a pending call, a non-empty error
string rejects the call with exactly that string, verbatim; an absent or
empty error string resolves the call with the envelope's result value. -/
theorem matched_response_error_passthrough
    (s : Manager) (resp : BridgeResponse)
    (hmem : resp.id ∈ s.pendingRequests) :
    (∀ e, resp.error = some e → e ≠ "" →
        (step s (Event.response resp)).obs =
          [(resp.id, Outcome.remoteError e)])
    ∧ ((resp.error = none ∨ resp.error = some "") →
        (step s (Event.response resp)).obs =
          [(resp.id, Outcome.result resp.result)]) := by
  constructor
  · intro e he hne
    simp only [step, handleResponseStep_hit _ _ hmem, responseOutcome,
      strTruthy, he]
    simp [hne]
  · intro hcase
    simp only [step, handleResponseStep_hit _ _ hmem, responseOutcome]
    rcases hcase with hc | hc <;> simp [strTruthy, hc]

/-- C7 witness: a matched response with error "boom" rejects with exactly
"boom"; a matched response with no error resolves with the result. -/
theorem matched_response_error_passthrough_witness :
    (∀ e, (⟨"r1", none, some "boom"⟩ : BridgeResponse).error = some e →
        e ≠ "" →
        (step ⟨[], ["r1"], none⟩
            (Event.response ⟨"r1", none, some "boom"⟩)).obs =
          [("r1", Outcome.remoteError e)])
    ∧ (((⟨"r1", none, some "boom"⟩ : BridgeResponse).error = none ∨
        (⟨"r1", none, some "boom"⟩ : BridgeResponse).error = some "") →
        (step ⟨[], ["r1"], none⟩
            (Event.response ⟨"r1", none, some "boom"⟩)).obs =
          [("r1", Outcome.result none)]) :=
  matched_response_error_passthrough ⟨[], ["r1"], none⟩
    ⟨"r1", none, some "boom"⟩ (by decide)

/-- C8: A connection-close event never touches the pending-call table and
delivers no outcome to any caller: every in-flight call survives the close
unchanged, resolvable only by a later matching response or its own deadline
timer. -/
theorem close_does_not_touch_pending (s : Manager) (cid : ConnId) :
    (step s (Event.wsClose cid)).st.pendingRequests = s.pendingRequests
    ∧ (step s (Event.wsClose cid)).obs = [] :=
  ⟨rfl, rfl⟩

/-- C5: After the close handler removes the active connection: if the
connection map still holds an entry, `hasActiveConnection` stays true, the
first remaining connection (map insertion order) is promoted, and a
subsequent dispatch is written to that promoted connection; if the map is
left empty, `hasActiveConnection` is false and every subsequent dispatch
fails immediately with `NoActiveConnection`, changing nothing. -/
theorem close_promotes_or_fails_dispatch
    (s : Manager) (cid : ConnId)
    (hact : s.activeConnectionId = some cid) :
    (∀ k ws rest, delAssoc s.connections cid = (k, ws) :: rest →
        hasActiveConnection (step s (Event.wsClose cid)).st = true
        ∧ (step s (Event.wsClose cid)).st.activeConnectionId = some k
        ∧ (∀ rid act p, rid ∉ s.pendingRequests → ws.readyState = WS_OPEN →
            step (step s (Event.wsClose cid)).st (Event.sendRequest rid act p) =
              ⟨⟨(k, ws) :: rest, s.pendingRequests ++ [rid], some k⟩, [],
               [(k, WireMsg.request ⟨rid, act, p⟩)]⟩))
    ∧ (delAssoc s.connections cid = [] →
        hasActiveConnection (step s (Event.wsClose cid)).st = false
        ∧ ∀ rid act p,
            step (step s (Event.wsClose cid)).st (Event.sendRequest rid act p) =
              ⟨(step s (Event.wsClose cid)).st,
               [(rid, Outcome.noActiveConnection)], []⟩) := by
  constructor
  · intro k ws rest hdel
    have hstep : (step s (Event.wsClose cid)).st =
        ⟨(k, ws) :: rest, s.pendingRequests, some k⟩ := by
      simp [step, wsCloseStep, hact, hdel, keysOf]
    have hactive :
        hasActiveConnection (step s (Event.wsClose cid)).st = true := by
      rw [hstep]
      simp [hasActiveConnection, hasAssoc, getAssoc]
    refine ⟨hactive, by rw [hstep], ?_⟩
    intro rid act p hfresh hopen
    rw [hstep] at hactive ⊢
    have hget : getAssoc
        ((⟨(k, ws) :: rest, s.pendingRequests, some k⟩ : Manager).connections)
        (((⟨(k, ws) :: rest, s.pendingRequests, some k⟩ :
            Manager).activeConnectionId).getD "") = some ws := by
      simp [getAssoc]
    have hsend := sendRequestStep_success
      ⟨(k, ws) :: rest, s.pendingRequests, some k⟩
      rid act p ws hactive hget hopen hfresh
    simpa using hsend
  · intro hdel
    have hstep : (step s (Event.wsClose cid)).st =
        ⟨[], s.pendingRequests, none⟩ := by
      simp [step, wsCloseStep, hact, hdel, keysOf]
    have hactive :
        hasActiveConnection (step s (Event.wsClose cid)).st = false := by
      rw [hstep]
      simp [hasActiveConnection]
    refine ⟨hactive, ?_⟩
    intro rid act p
    simp only [step]
    exact sendRequestStep_noActive _ rid act p hactive

/-- C5 witness: two tracked connections, the active one ("c1") closes:
"c2" is promoted, stays active, and carries the next dispatch; closing the
sole connection of a one-connection manager instead drops to no active
connection and dispatch fails with `NoActiveConnection`. -/
theorem close_promotes_or_fails_dispatch_witness :
    (∀ k ws rest,
        delAssoc (⟨[("c1", ⟨1⟩), ("c2", ⟨1⟩)], [], some "c1"⟩ :
            Manager).connections "c1" = (k, ws) :: rest →
        hasActiveConnection
            (step ⟨[("c1", ⟨1⟩), ("c2", ⟨1⟩)], [], some "c1"⟩
              (Event.wsClose "c1")).st = true
        ∧ (step ⟨[("c1", ⟨1⟩), ("c2", ⟨1⟩)], [], some "c1"⟩
              (Event.wsClose "c1")).st.activeConnectionId = some k
        ∧ (∀ rid act p,
            rid ∉ (⟨[("c1", ⟨1⟩), ("c2", ⟨1⟩)], [], some "c1"⟩ :
                Manager).pendingRequests →
            ws.readyState = WS_OPEN →
            step (step ⟨[("c1", ⟨1⟩), ("c2", ⟨1⟩)], [], some "c1"⟩
                (Event.wsClose "c1")).st (Event.sendRequest rid act p) =
              ⟨⟨(k, ws) :: rest,
                (⟨[("c1", ⟨1⟩), ("c2", ⟨1⟩)], [], some "c1"⟩ :
                  Manager).pendingRequests ++ [rid], some k⟩, [],
               [(k, WireMsg.request ⟨rid, act, p⟩)]⟩))
    ∧ (delAssoc (⟨[("c1", ⟨1⟩), ("c2", ⟨1⟩)], [], some "c1"⟩ :
          Manager).connections "c1" = [] →
        hasActiveConnection
            (step ⟨[("c1", ⟨1⟩), ("c2", ⟨1⟩)], [], some "c1"⟩
              (Event.wsClose "c1")).st = false
        ∧ ∀ rid act p,
            step (step ⟨[("c1", ⟨1⟩), ("c2", ⟨1⟩)], [], some "c1"⟩
                (Event.wsClose "c1")).st (Event.sendRequest rid act p) =
              ⟨(step ⟨[("c1", ⟨1⟩), ("c2", ⟨1⟩)], [], some "c1"⟩
                  (Event.wsClose "c1")).st,
               [(rid, Outcome.noActiveConnection)], []⟩) :=
  close_promotes_or_fails_dispatch
    ⟨[("c1", ⟨1⟩), ("c2", ⟨1⟩)], [], some "c1"⟩ "c1" (by decide)

/-- C10: From the initial manager, any interleaving of connection
registrations, closes, dispatches, responses, timer fires and pings keeps
the invariant that `activeConnectionId` is null or a key of the connection
map; hence `hasActiveConnection` answers exactly "is `activeConnectionId`
non-null", and whenever it answers true, the lookup of the active
connection finds a tracked socket. -/
theorem active_pointer_always_tracked (evs : List Event) :
    ActiveTracked (runTrace initialManager evs).st
    ∧ hasActiveConnection (runTrace initialManager evs).st =
        ((runTrace initialManager evs).st.activeConnectionId).isSome
    ∧ (hasActiveConnection (runTrace initialManager evs).st = true →
        ∃ ws, getAssoc (runTrace initialManager evs).st.connections
          (((runTrace initialManager evs).st.activeConnectionId).getD "") =
            some ws) := by
  have h0 : ActiveTracked initialManager := by
    intro a ha
    simp [initialManager] at ha
  have h1 := run_preserves_activeTracked evs initialManager h0
  refine ⟨h1, hasActive_of_activeTracked _ h1, ?_⟩
  intro hact
  cases hs : (runTrace initialManager evs).st.activeConnectionId with
  | none =>
    rw [hasActive_of_activeTracked _ h1, hs] at hact
    simp at hact
  | some a =>
    have htr := h1 a hs
    rw [hasAssoc] at htr
    simp only [Option.getD_some]
    exact Option.isSome_iff_exists.mp htr

/-- C10 witness: after registering "c1" and "c2" and closing "c1", the
invariant, the `hasActiveConnection` equivalence, and the successful lookup
all hold for the resulting state. -/
theorem active_pointer_always_tracked_witness :
    ActiveTracked (runTrace initialManager
        [Event.addConnection "c1" ⟨1⟩, Event.addConnection "c2" ⟨1⟩,
         Event.wsClose "c1"]).st
    ∧ hasActiveConnection (runTrace initialManager
        [Event.addConnection "c1" ⟨1⟩, Event.addConnection "c2" ⟨1⟩,
         Event.wsClose "c1"]).st =
        ((runTrace initialManager
          [Event.addConnection "c1" ⟨1⟩, Event.addConnection "c2" ⟨1⟩,
           Event.wsClose "c1"]).st.activeConnectionId).isSome
    ∧ (hasActiveConnection (runTrace initialManager
          [Event.addConnection "c1" ⟨1⟩, Event.addConnection "c2" ⟨1⟩,
           Event.wsClose "c1"]).st = true →
        ∃ ws, getAssoc (runTrace initialManager
            [Event.addConnection "c1" ⟨1⟩, Event.addConnection "c2" ⟨1⟩,
             Event.wsClose "c1"]).st.connections
          (((runTrace initialManager
              [Event.addConnection "c1" ⟨1⟩, Event.addConnection "c2" ⟨1⟩,
               Event.wsClose "c1"]).st.activeConnectionId).getD "") =
            some ws) :=
  active_pointer_always_tracked
    [Event.addConnection "c1" ⟨1⟩, Event.addConnection "c2" ⟨1⟩,
     Event.wsClose "c1"]

/-- C9: For the reconnecting transport client (modelled from the spec, with
the configuration passed at construction: cap 10 attempts, 1000 ms initial
delay, 30000 ms ceiling), the delay scheduled between consecutive failed
attempts k and k+1 is min(initial * 2^(k-1), ceiling), the attempt count
after k scheduled attempts is k, and once the cap is reached a further
close/error schedules no reconnect — while `connect()` re-enters
`connecting`. -/
theorem reconnect_backoff_schedule :
    (∀ k, 1 ≤ k → k ≤ maxReconnectAttempts →
        (failedAttempts k).scheduledReconnect =
          some (min (initialReconnectDelay * 2 ^ (k - 1)) maxReconnectDelay)
        ∧ (failedAttempts k).reconnectAttempts = k)
    ∧ (failedAttempts (maxReconnectAttempts + 1)).scheduledReconnect = none
    ∧ ((failedAttempts (maxReconnectAttempts + 1)).onCloseOrError).scheduledReconnect = none
    ∧ ((failedAttempts (maxReconnectAttempts + 1)).connect).status =
        ConnStatus.connecting := by
    refine ⟨?_, by decide, by decide, by decide⟩
    intro k h1 h2
    rw [show maxReconnectAttempts = 10 from rfl] at h2
    interval_cases k <;> decide

/-- C9 witness: the delay scheduled between the 5th and 6th attempts is
min(1000 * 2^4, 30000) = 16000 ms, with the attempt count at 5. -/
theorem reconnect_backoff_schedule_witness :
    (failedAttempts 5).scheduledReconnect =
      some (min (initialReconnectDelay * 2 ^ (5 - 1)) maxReconnectDelay)
    ∧ (failedAttempts 5).reconnectAttempts = 5 :=
  reconnect_backoff_schedule.1 5 (by decide) (by decide)
